import Mathlib

/-!
Shallow embedding of the Acuity invoice parser
(`acuity_invoice_agent.py` / `acuity_invoice_parser.py`).

Python strings are modelled as lists of Unicode codepoints (`PyStr`),
floats as rationals (`Rat`; the NaN / missing sentinel is a separate
constructor of `Cell`), and a spreadsheet row as a structure holding the
ten cells the fixed column schema reads.  Pandas operations are embedded
by their observable semantics:

* `df.groupby('sku', as_index=False).agg(...)` emits one record per
  distinct key, keys in ascending (lexicographic) sorted order
  (pandas' default `sort=True`), summing numeric columns with NaN
  skipped (an all-NaN group sums to `0.0`) and taking `first` for the
  listed string columns; columns absent from the aggregation dictionary
  (in particular `unit_price` and `line_number`) are dropped.
* `aggregated.loc[mask, 'unit_price'] = ...` creates the column anew,
  leaving NaN (modelled `none`) on rows outside the mask.
-/

namespace Acuity

/-- A Python string, as its list of Unicode codepoints. -/
abbrev PyStr := List Nat

/-- Injection of a Lean string literal into the codepoint model. -/
def strN (s : String) : PyStr := s.data.map Char.toNat

/-- Python `str.strip` whitespace test (space, tab, newline, CR, VT, FF). -/
def isSpaceNat (n : Nat) : Bool :=
  n == 32 || n == 9 || n == 10 || n == 13 || n == 11 || n == 12

/-- Python `str.upper` on one ASCII codepoint (letters a–z map to A–Z). -/
def upperNat (n : Nat) : Nat := if 97 ≤ n ∧ n ≤ 122 then n - 32 else n

/-- Python `str.upper`. -/
def pyUpper (s : PyStr) : PyStr := s.map upperNat

/-- Python `str.strip`: drop leading and trailing whitespace. -/
def pyStrip (s : PyStr) : PyStr :=
  ((s.dropWhile isSpaceNat).reverse.dropWhile isSpaceNat).reverse

/-- A spreadsheet cell: the missing/NaN sentinel, text, or a number
(floats modelled as rationals). -/
inductive Cell where
  | nan : Cell
  | str : PyStr → Cell
  | num : Rat → Cell
deriving DecidableEq

/-- `pd.isna` on a cell. -/
def Cell.isna : Cell → Bool
  | Cell.nan => true
  | _ => false

/-- Python truthiness test `not value` on a cell (empty string and the
number 0 are falsy; NaN is truthy). -/
def Cell.falsy : Cell → Bool
  | Cell.nan => false
  | Cell.str s => s == []
  | Cell.num q => q == 0

/-- Python `str(value)` on a cell (the numeric rendering stands in for
Python's float formatting; no claim inspects it). -/
def Cell.pyStr : Cell → PyStr
  | Cell.nan => strN "nan"
  | Cell.str s => s
  | Cell.num q => strN (toString q)

/-- Association-list lookup, embedding Python `dict.get(k, default)`
with the default supplied by the caller. -/
def lookupTab (tab : List (PyStr × PyStr)) (k : PyStr) : Option PyStr :=
  match tab with
  | [] => none
  | (k', v) :: rest => if k = k' then some v else lookupTab rest k

/-- `COUNTRY_CODES` / `COUNTRY_CODE_MAP`: 3-letter to 2-letter ISO codes. -/
def COUNTRY_CODES : List (PyStr × PyStr) :=
  [(strN "MEX", strN "MX"), (strN "USA", strN "US"), (strN "CAN", strN "CA"),
   (strN "CHN", strN "CN"), (strN "JPN", strN "JP"), (strN "DEU", strN "DE"),
   (strN "GBR", strN "GB"), (strN "FRA", strN "FR"), (strN "ITA", strN "IT"),
   (strN "ESP", strN "ES"), (strN "BRA", strN "BR"), (strN "IND", strN "IN"),
   (strN "KOR", strN "KR"), (strN "TWN", strN "TW"), (strN "THA", strN "TH"),
   (strN "VNM", strN "VN"), (strN "MYS", strN "MY"), (strN "SGP", strN "SG"),
   (strN "IDN", strN "ID"), (strN "PHL", strN "PH")]

/-- `UNIT_CODES` / `UNIT_CONVERSION_MAP`: Spanish to English unit codes. -/
def UNIT_CODES : List (PyStr × PyStr) :=
  [(strN "PZS", strN "PCS"), (strN "PZA", strN "PCS"), (strN "KGS", strN "KG"),
   (strN "KGM", strN "KG"), (strN "LBS", strN "LB"), (strN "MTS", strN "M"),
   (strN "MTR", strN "M"), (strN "LTS", strN "L"), (strN "LTR", strN "L"),
   (strN "UNI", strN "EA"), (strN "CAJ", strN "CS"), (strN "PAR", strN "PR")]

/-- `AcuityInvoiceAgent.convert_country_code` / `convert_country_code`:
empty/NaN input yields `''`; otherwise strip and uppercase; a 2-character
result is returned as-is, anything else is looked up in the country
table with identity fallback.  (Both source files implement the same
logic.) -/
def convert_country_code (c : Cell) : PyStr :=
  if c.falsy || c.isna then []
  else
    let code := pyUpper (pyStrip c.pyStr)
    if code.length = 2 then code
    else (lookupTab COUNTRY_CODES code).getD code

/-- `AcuityInvoiceAgent.convert_unit` / `convert_unit`: empty/NaN input
yields `''`; otherwise strip, uppercase and look up in the unit table
with identity fallback. -/
def convert_unit (c : Cell) : PyStr :=
  if c.falsy || c.isna then []
  else
    let u := pyUpper (pyStrip c.pyStr)
    (lookupTab UNIT_CODES u).getD u

/-- Python `float(str)` for finite decimal literals: optional
surrounding whitespace, optional sign, digits with an optional single
decimal point (digits required on at least one side).  Non-numeric text
such as `"N/A"` yields `none`.  (Exponent forms and the non-finite
literals `inf`/`nan` fall outside the rational value domain of this
embedding and also yield `none`.) -/
def digitsVal : List Nat → Option Nat
  | [] => none
  | ds =>
    if ds.all (fun d => 48 ≤ d && d ≤ 57) then
      some (ds.foldl (fun acc d => acc * 10 + (d - 48)) 0)
    else none

/-- Parse the unsigned part `digits[.digits]` of a float literal. -/
def parseUnsigned (s : PyStr) : Option Rat :=
  match s.splitOn 46 with
  | [intPart] =>
    (digitsVal intPart).map (fun n => (n : Rat))
  | [intPart, fracPart] =>
    if intPart = [] ∧ fracPart = [] then none
    else if intPart = [] then
      (digitsVal fracPart).map (fun f => (f : Rat) / (10 ^ fracPart.length : Nat))
    else if fracPart = [] then
      (digitsVal intPart).map (fun n => (n : Rat))
    else
      match digitsVal intPart, digitsVal fracPart with
      | some n, some f => some ((n : Rat) + (f : Rat) / (10 ^ fracPart.length : Nat))
      | _, _ => none
  | _ => none

/-- Python `float(...)` applied to a string. -/
def parseFloat (s : PyStr) : Option Rat :=
  match pyStrip s with
  | [] => none
  | 43 :: rest => parseUnsigned rest
  | 45 :: rest => (parseUnsigned rest).map (fun q => -q)
  | t => parseUnsigned t

/-- Python `float(value)` on a cell: numbers pass through, strings are
parsed, anything unparseable is a coercion failure (`none`, standing
for the caught `ValueError`/`TypeError`). -/
def pyFloat : Cell → Option Rat
  | Cell.nan => none
  | Cell.num q => some q
  | Cell.str s => parseFloat s

/-- `AcuityInvoiceAgent.clean_numeric` / `clean_value`: NaN yields
`None`; otherwise `float(value)`, with coercion failures caught and
turned into `None`. -/
def clean_numeric (c : Cell) : Option Rat :=
  if c.isna then none else pyFloat c

/-- A parsed line item (the record built in
`AcuityInvoiceAgent.parse_file`): nullable floats are `Option Rat`,
strings `PyStr`. -/
structure LineItem where
  line_number : Nat
  sku : PyStr
  description : PyStr
  hts : PyStr
  country_of_origin : PyStr
  quantity : Option Rat
  qty_unit : PyStr
  net_weight : Option Rat
  gross_weight : Option Rat
  unit_price : Option Rat
  value : Option Rat
deriving DecidableEq, Inhabited

/-- Pandas NaN-skipping (`skipna`) column sum over a group: nulls count
as 0, an all-null group sums to 0. -/
def sumWith (f : LineItem → Option Rat) (l : List LineItem) : Rat :=
  (l.map (fun x => (f x).getD 0)).sum

/-- Lexicographic (codepoint-wise) string comparison, the order pandas
uses when sorting string group keys. -/
def lexLe : PyStr → PyStr → Bool
  | [], _ => true
  | _ :: _, [] => false
  | a :: as, b :: bs => if a < b then true else if b < a then false else lexLe as bs

/-- The sort relation for group keys. -/
def keyLe (a b : PyStr) : Prop := lexLe a b = true

instance : DecidableRel keyLe := fun a b => by
  unfold keyLe; infer_instance

/-- The group-key list `df.groupby('sku')` iterates over: the distinct
SKUs, in ascending sorted order (pandas default `sort=True`). -/
def sortedKeys (items : List LineItem) : List PyStr :=
  List.insertionSort keyLe (items.map (fun x => x.sku)).dedup

/-- The members of one SKU group, in original row order. -/
def groupOf (items : List LineItem) (k : PyStr) : List LineItem :=
  items.filter (fun x => x.sku = k)

/-- The aggregated record `df.groupby('sku', as_index=False).agg(agg_dict)`
emits for key `k` at (0-based) group position `i`, after the
`unit_price` recomputation and line renumbering of
`AcuityInvoiceAgent.aggregate_by_sku`:

* `quantity`, `net_weight`, `gross_weight`, `value` are NaN-skipping
  sums over the group (so never null in the output);
* `description`, `hts`, `country_of_origin`, `qty_unit` take the
  group's first occurrence (`'first'`);
* `unit_price` is not in `agg_dict`, so the original column is dropped;
  `aggregated.loc[mask, 'unit_price'] = value/quantity` then fills it
  only where the summed quantity is `> 0`, leaving NaN (`none`)
  elsewhere;
* `line_number` is reassigned `i + 1` in emission order. -/
def mkAgg (items : List LineItem) (i : Nat) (k : PyStr) : LineItem :=
  let g := groupOf items k
  let qs := sumWith (fun x => x.quantity) g
  { line_number := i + 1
    sku := k
    description := (g.headI).description
    hts := (g.headI).hts
    country_of_origin := (g.headI).country_of_origin
    quantity := some qs
    qty_unit := (g.headI).qty_unit
    net_weight := some (sumWith (fun x => x.net_weight) g)
    gross_weight := some (sumWith (fun x => x.gross_weight) g)
    unit_price := if 0 < qs then some (sumWith (fun x => x.value) g / qs) else none
    value := some (sumWith (fun x => x.value) g) }

/-- `AcuityInvoiceAgent.aggregate_by_sku`: empty input short-circuits to
`[]`; otherwise group by SKU (sorted key order), aggregate, recompute
`unit_price` where the summed quantity is positive, and renumber lines
from 1.  (`aggregate_by_sku` in `acuity_invoice_parser.py` shares this
grouping and `unit_price` logic; it differs only in the extra
always-empty string columns and in not renumbering lines.) -/
def aggregate_by_sku (items : List LineItem) : List LineItem :=
  if items = [] then []
  else (sortedKeys items).enum.map (fun p => mkAgg items p.1 p.2)

/-- One source row, restricted to the ten cells the fixed
`COLUMN_MAP` schema reads (SKU=19, description=23, HTS=42, origin=38,
quantity=20, unit=21, net=33, gross=34, unit_price=25, value=28). -/
structure Row where
  sku : Cell
  description : Cell
  hts : Cell
  country_of_origin : Cell
  quantity : Cell
  qty_unit : Cell
  net_weight : Cell
  gross_weight : Cell
  unit_price : Cell
  value : Cell
deriving DecidableEq

/-- The skip test of the row loop:
`pd.isna(sku) or str(sku).strip() == ''`. -/
def blankSku (r : Row) : Bool :=
  r.sku.isna || pyStrip r.sku.pyStr == []

/-- The line item `parse_file` builds from row index `idx` (0-based):
`line_number = idx + 1`, trimmed strings (empty on NaN), normalized
country and unit, cleaned numerics. -/
def mkItem (idx : Nat) (r : Row) : LineItem :=
  { line_number := idx + 1
    sku := pyStrip r.sku.pyStr
    description := if r.description.isna then [] else pyStrip r.description.pyStr
    hts := if r.hts.isna then [] else pyStrip r.hts.pyStr
    country_of_origin := convert_country_code r.country_of_origin
    quantity := clean_numeric r.quantity
    qty_unit := convert_unit r.qty_unit
    net_weight := clean_numeric r.net_weight
    gross_weight := clean_numeric r.gross_weight
    unit_price := clean_numeric r.unit_price
    value := clean_numeric r.value }

/-- `AcuityInvoiceAgent._validate_item`: the list of advisory issue
messages for one item; the item itself is never altered. -/
def validate_item (it : LineItem) : List PyStr :=
  (if it.sku = [] then [strN "Missing SKU"] else []) ++
  (if it.hts = [] then [strN "Missing HTS code"] else []) ++
  (if it.country_of_origin = [] then [strN "Missing country of origin"] else []) ++
  (match it.quantity with
   | none => [strN "Missing quantity"]
   | some q => if q ≤ 0 then [strN "Invalid quantity (must be > 0)"] else []) ++
  (match it.value with
   | none => [strN "Missing value"]
   | some v => if v < 0 then [strN "Invalid value (must be >= 0)"] else [])

/-- One entry of the `errors` list: `{'line': idx + 1, 'errors': [...]}`. -/
structure ParseErr where
  line : Nat
  msgs : List PyStr
deriving DecidableEq

/-- Whether the `max_items` config value is truthy
(`if self.max_items and ...`): `None` and `0` are falsy. -/
def maxActive : Option Int → Bool
  | none => false
  | some n => n != 0

/-- The row loop of `AcuityInvoiceAgent.parse_file` (lines 184–229):
`idx` is the current 0-based row index, `cnt` the number of items
collected so far (`len(line_items)`, used by the `max_items` break).
Each surviving row's item is appended unconditionally; when `validate`
is set and `_validate_item` reports issues, an error entry keyed by
`idx + 1` is recorded alongside. -/
def parseLoop (validate : Bool) (m : Option Int) :
    Nat → Nat → List Row → List LineItem × List ParseErr
  | _, _, [] => ([], [])
  | idx, cnt, r :: rest =>
    if maxActive m ∧ m.getD 0 ≤ (cnt : Int) then ([], [])
    else if blankSku r then parseLoop validate m (idx + 1) cnt rest
    else
      let it := mkItem idx r
      let p := parseLoop validate m (idx + 1) (cnt + 1) rest
      (it :: p.1,
       if validate ∧ validate_item it ≠ [] then ⟨idx + 1, validate_item it⟩ :: p.2 else p.2)

/-- The item/error extraction phase of `parse_file`, over the file's
rows. -/
def parse_file_items (validate : Bool) (m : Option Int) (rows : List Row) :
    List LineItem × List ParseErr :=
  parseLoop validate m 0 0 rows

/-- Python `round(x, 2)` (banker's rounding, embedded on rationals). -/
def round2 (q : Rat) : Rat :=
  let n : Int := ⌊q * 100⌋
  let frac : Rat := q * 100 - n
  let r : Int :=
    if frac > 1/2 then n + 1
    else if frac < 1/2 then n
    else if n % 2 = 0 then n else n + 1
  (r : Rat) / 100

/-- The summary record `_generate_summary` builds for a non-empty item
list. -/
structure ParseSummary where
  total_items : Nat
  total_quantity : Rat
  total_value : Rat
  total_weight_kg : Rat
  unique_skus : Nat
  unique_hts_codes : Nat
  unique_origins : Nat
deriving DecidableEq

/-- `AcuityInvoiceAgent._generate_summary`: an empty item list returns
the empty dict `{}` (modelled `none`); otherwise totals sum with
null-as-0 (`item.get(...) or 0`), rounded to 2 places, and the unique
counts are set cardinalities (HTS and origin restricted to truthy,
i.e. non-empty, values; SKUs not so restricted). -/
def generate_summary (items : List LineItem) : Option ParseSummary :=
  if items = [] then none
  else some
    { total_items := items.length
      total_quantity := round2 (sumWith (fun x => x.quantity) items)
      total_value := round2 (sumWith (fun x => x.value) items)
      total_weight_kg := round2 (sumWith (fun x => x.net_weight) items)
      unique_skus := (items.map (fun x => x.sku)).dedup.length
      unique_hts_codes :=
        (((items.filter (fun x => x.hts ≠ [])).map (fun x => x.hts))).dedup.length
      unique_origins :=
        (((items.filter (fun x => x.country_of_origin ≠ [])).map
          (fun x => x.country_of_origin))).dedup.length }

/-- Concrete aggregation input: a group with positive summed quantity. -/
def cexPos : LineItem :=
  ⟨1, strN "B", [], [], [], some 2, [], none, none, some 99, some 10⟩

/-- Concrete aggregation input: a group with zero summed quantity and a
prior `unit_price` of 5. -/
def cexZero : LineItem :=
  ⟨2, strN "A", [], [], [], some 0, [], none, none, some 5, some 7⟩

/-- Concrete source row carrying a SKU (other string cells missing,
so validation reports issues for it). -/
def rowSkuW : Row :=
  { sku := Cell.str (strN "S1"), description := Cell.nan, hts := Cell.nan,
    country_of_origin := Cell.nan, quantity := Cell.num 5, qty_unit := Cell.nan,
    net_weight := Cell.nan, gross_weight := Cell.nan, unit_price := Cell.nan,
    value := Cell.num 3 }

/-- Concrete source row whose SKU cell is whitespace only (blank after
trimming). -/
def rowBlankW : Row :=
  { sku := Cell.str (strN "   "), description := Cell.nan, hts := Cell.nan,
    country_of_origin := Cell.nan, quantity := Cell.num 5, qty_unit := Cell.nan,
    net_weight := Cell.nan, gross_weight := Cell.nan, unit_price := Cell.nan,
    value := Cell.num 3 }

/-! ### String-primitive lemmas -/

theorem dropWhile_idem (p : Nat → Bool) (l : List Nat) :
    (l.dropWhile p).dropWhile p = l.dropWhile p := by
  induction l with
  | nil => rfl
  | cons a t ih =>
    by_cases h : p a
    · rw [List.dropWhile_cons_of_pos h]; exact ih
    · rw [List.dropWhile_cons_of_neg h, List.dropWhile_cons_of_neg h]

theorem head?_dropWhile_false (p : Nat → Bool) (l : List Nat) (a : Nat)
    (h : (l.dropWhile p).head? = some a) : p a = false := by
  have hd := List.head?_dropWhile_not p l
  rw [h] at hd
  exact hd

theorem dropWhile_eq_self_of_head? (p : Nat → Bool) (l : List Nat)
    (h : ∀ a, l.head? = some a → p a = false) : l.dropWhile p = l := by
  cases l with
  | nil => rfl
  | cons a t => exact List.dropWhile_cons_of_neg (by simp [h a rfl])

theorem getLast?_dropWhile (p : Nat → Bool) (l : List Nat)
    (h : l.dropWhile p ≠ []) : (l.dropWhile p).getLast? = l.getLast? := by
  induction l with
  | nil => simp at h
  | cons a t ih =>
    by_cases hp : p a
    · rw [List.dropWhile_cons_of_pos hp] at h ⊢
      have ht : t ≠ [] := by
        intro e; rw [e] at h; simp at h
      rw [ih h]
      cases t with
      | nil => exact absurd rfl ht
      | cons b u => simp
    · rw [List.dropWhile_cons_of_neg hp]

theorem pyStrip_idem (s : PyStr) : pyStrip (pyStrip s) = pyStrip s := by
  unfold pyStrip
  set p := isSpaceNat with hp
  set A := s.dropWhile p with hA
  set C := A.reverse.dropWhile p with hC
  have h1 : C.reverse.dropWhile p = C.reverse := by
    apply dropWhile_eq_self_of_head?
    intro a ha
    rw [List.head?_reverse] at ha
    have hC_ne : C ≠ [] := by
      intro e; rw [e] at ha; simp at ha
    rw [hC] at ha
    rw [getLast?_dropWhile p A.reverse (by rw [← hC]; exact hC_ne)] at ha
    rw [List.getLast?_reverse] at ha
    exact head?_dropWhile_false p s a (by rw [← hA]; exact ha)
  rw [h1, List.reverse_reverse, hC, dropWhile_idem]

theorem isSpace_upperNat (n : Nat) : isSpaceNat (upperNat n) = isSpaceNat n := by
  by_cases h : 97 ≤ n ∧ n ≤ 122
  · have e1 : isSpaceNat (upperNat n) = false := by
      simp only [isSpaceNat, upperNat, if_pos h, Bool.or_eq_false_iff, beq_eq_false_iff_ne,
        ne_eq]
      omega
    have e2 : isSpaceNat n = false := by
      simp only [isSpaceNat, Bool.or_eq_false_iff, beq_eq_false_iff_ne, ne_eq]
      omega
    rw [e1, e2]
  · simp only [upperNat, if_neg h]

theorem upperNat_idem (n : Nat) : upperNat (upperNat n) = upperNat n := by
  simp only [upperNat]
  by_cases h : 97 ≤ n ∧ n ≤ 122
  · rw [if_pos h, if_neg (by omega : ¬(97 ≤ n - 32 ∧ n - 32 ≤ 122))]
  · rw [if_neg h, if_neg h]

theorem pyUpper_idem (s : PyStr) : pyUpper (pyUpper s) = pyUpper s := by
  have hu : upperNat ∘ upperNat = upperNat := funext upperNat_idem
  unfold pyUpper
  rw [List.map_map, hu]

theorem pyStrip_pyUpper (s : PyStr) : pyStrip (pyUpper s) = pyUpper (pyStrip s) := by
  have hpf : (isSpaceNat ∘ upperNat) = isSpaceNat := funext isSpace_upperNat
  unfold pyStrip pyUpper
  rw [List.dropWhile_map, hpf, ← List.map_reverse, List.dropWhile_map, hpf,
    ← List.map_reverse]

theorem pyStrip_code_fix (s : PyStr) :
    pyStrip (pyUpper (pyStrip s)) = pyUpper (pyStrip s) := by
  rw [pyStrip_pyUpper, pyStrip_idem]

theorem lookupTab_mem (tab : List (PyStr × PyStr)) (k v : PyStr)
    (h : lookupTab tab k = some v) : ∃ k', (k', v) ∈ tab := by
  induction tab with
  | nil => simp [lookupTab] at h
  | cons hd tl ih =>
    obtain ⟨k', v'⟩ := hd
    unfold lookupTab at h
    by_cases e : k = k'
    · rw [if_pos e] at h
      injection h with hv
      exact ⟨k', by simp [hv]⟩
    · rw [if_neg e] at h
      obtain ⟨k'', hk⟩ := ih h
      exact ⟨k'', List.mem_cons_of_mem _ hk⟩

theorem country_table_fix :
    ∀ p ∈ COUNTRY_CODES, convert_country_code (Cell.str p.2) = p.2 := by decide

theorem convert_fix_of_stripped (r : PyStr)
    (hstrip : pyStrip r = r) (hupper : pyUpper r = r) (hlen : r.length = 2) :
    convert_country_code (Cell.str r) = r := by
  have hne : (r == ([] : PyStr)) = false := by
    cases r with
    | nil => simp at hlen
    | cons a t => rfl
  unfold convert_country_code
  simp only [Cell.falsy, Cell.isna, Cell.pyStr, hne, Bool.or_false, if_false,
    Bool.false_eq_true, hstrip, hupper, hlen, if_pos]

theorem convert_eq_of_ne_nil (s : PyStr) (h : s ≠ []) :
    convert_country_code (Cell.str s) =
      (if (pyUpper (pyStrip s)).length = 2 then pyUpper (pyStrip s)
       else (lookupTab COUNTRY_CODES (pyUpper (pyStrip s))).getD (pyUpper (pyStrip s))) := by
  have hne : (s == ([] : PyStr)) = false := by
    cases s with
    | nil => exact absurd rfl h
    | cons a t => rfl
  unfold convert_country_code
  simp only [Cell.falsy, Cell.isna, Cell.pyStr, hne, Bool.or_false, if_false,
    Bool.false_eq_true]

/-- C7: `convert_country_code` is idempotent on non-empty inputs: a
2-character result passes the second application unchanged, a table
translation is a 2-letter code that also passes unchanged, and an
unknown code falls back to its stripped-and-uppercased self, which is a
fixed point. -/
theorem convert_country_code_idempotent (s : PyStr) (h : s ≠ []) :
    convert_country_code (Cell.str (convert_country_code (Cell.str s))) =
      convert_country_code (Cell.str s) := by
  have hfs := convert_eq_of_ne_nil s h
  have hfix_s : pyStrip (pyUpper (pyStrip s)) = pyUpper (pyStrip s) := pyStrip_code_fix s
  have hfix_u : pyUpper (pyUpper (pyStrip s)) = pyUpper (pyStrip s) := pyUpper_idem _
  by_cases hlen : (pyUpper (pyStrip s)).length = 2
  · have hr : convert_country_code (Cell.str s) = pyUpper (pyStrip s) := by
      rw [hfs, if_pos hlen]
    rw [hr]
    exact convert_fix_of_stripped _ hfix_s hfix_u hlen
  · cases hl : lookupTab COUNTRY_CODES (pyUpper (pyStrip s)) with
    | some v =>
      have hr : convert_country_code (Cell.str s) = v := by
        rw [hfs, if_neg hlen, hl]
        rfl
      rw [hr]
      obtain ⟨k', hk⟩ := lookupTab_mem _ _ _ hl
      exact country_table_fix (k', v) hk
    | none =>
      have hr : convert_country_code (Cell.str s) = pyUpper (pyStrip s) := by
        rw [hfs, if_neg hlen, hl]
        rfl
      rw [hr]
      by_cases hc : pyUpper (pyStrip s) = []
      · rw [hc]
        rfl
      · rw [convert_eq_of_ne_nil _ hc, hfix_s, hfix_u, if_neg hlen, hl]
        rfl

/-- Witness for C7 at the concrete input `"MEX"`. -/
theorem convert_country_code_idempotent_w :
    convert_country_code (Cell.str (convert_country_code (Cell.str (strN "MEX")))) =
      convert_country_code (Cell.str (strN "MEX")) :=
  convert_country_code_idempotent (strN "MEX") (by decide)

/-! ### Lexicographic key order -/

theorem lexLe_total (a b : PyStr) : lexLe a b = true ∨ lexLe b a = true := by
  induction a generalizing b with
  | nil => left; rfl
  | cons x xs ih =>
    cases b with
    | nil => right; rfl
    | cons y ys =>
      by_cases hxy : x < y
      · left; simp [lexLe, hxy]
      · by_cases hyx : y < x
        · right; simp [lexLe, hyx]
        · rcases ih ys with h | h
          · left; simp [lexLe, hxy, hyx, h]
          · right; simp [lexLe, hxy, hyx, h]

theorem lexLe_trans (a b c : PyStr) (h1 : lexLe a b = true) (h2 : lexLe b c = true) :
    lexLe a c = true := by
  induction a generalizing b c with
  | nil => rfl
  | cons x xs ih =>
    cases b with
    | nil => simp [lexLe] at h1
    | cons y ys =>
      cases c with
      | nil => simp [lexLe] at h2
      | cons z zs =>
        simp only [lexLe] at h1 h2 ⊢
        split_ifs at h1 h2 ⊢ <;> first
          | rfl
          | omega
          | (exact ih ys zs h1 h2)

instance : IsTotal PyStr keyLe := ⟨fun a b => lexLe_total a b⟩

instance : IsTrans PyStr keyLe := ⟨fun a b c => lexLe_trans a b c⟩

/-! ### Aggregation lemmas -/

theorem sortedKeys_nodup (items : List LineItem) : (sortedKeys items).Nodup :=
  ((List.perm_insertionSort keyLe _).nodup_iff).mpr (List.nodup_dedup _)

theorem mem_sortedKeys (items : List LineItem) (k : PyStr) :
    k ∈ sortedKeys items ↔ k ∈ items.map (fun x => x.sku) := by
  unfold sortedKeys
  rw [List.mem_insertionSort, List.mem_dedup]

theorem sortedKeys_length (items : List LineItem) :
    (sortedKeys items).length = (items.map (fun x => x.sku)).dedup.length :=
  (List.perm_insertionSort keyLe _).length_eq

theorem mkAgg_sku (items : List LineItem) (i : Nat) (k : PyStr) :
    (mkAgg items i k).sku = k := rfl

theorem aggregate_map_sku (items : List LineItem) :
    (aggregate_by_sku items).map (fun x => x.sku) = sortedKeys items := by
  by_cases h : items = []
  · subst h; rfl
  · unfold aggregate_by_sku
    rw [if_neg h, List.map_map]
    have he : ((fun x : LineItem => x.sku) ∘ fun p : Nat × PyStr => mkAgg items p.1 p.2)
        = Prod.snd := by
      funext p; rfl
    rw [he]
    exact List.enumFrom_map_snd 0 _

theorem aggregate_map_line (items : List LineItem) :
    (aggregate_by_sku items).map (fun x => x.line_number) =
      List.range' 1 (aggregate_by_sku items).length := by
  by_cases h : items = []
  · subst h; rfl
  · unfold aggregate_by_sku
    rw [if_neg h, List.map_map, List.length_map]
    have he : ((fun x : LineItem => x.line_number) ∘ fun p : Nat × PyStr => mkAgg items p.1 p.2)
        = (fun n => n + 1) ∘ Prod.fst := by
      funext p; rfl
    rw [he, ← List.map_map]
    simp only [List.enum]
    rw [List.enumFrom_map_fst, List.enumFrom_length]
    rw [List.range'_eq_map_range, List.range'_eq_map_range, List.map_map]
    apply List.map_congr_left
    intro a _
    simp [Nat.add_comm]

/-- C2 counterexample: with input SKU order `["B", "A"]`, the output is
emitted in sorted order `["A", "B"]`, not first-appearance order
(`groupby` defaults to `sort=True`). -/
theorem aggregate_order_cex :
    ((aggregate_by_sku [cexPos, cexZero]).map fun x => x.sku) =
        [strN "A", strN "B"] ∧
    ([cexPos, cexZero].map fun x => x.sku) = [strN "B", strN "A"] ∧
    [strN "A", strN "B"] ≠ [strN "B", strN "A"] := by decide

/-- C2 amended: `aggregate_by_sku` emits one item per SKU group in
ascending lexicographic SKU order (pandas `groupby` sorted key order,
not first-appearance order), and assigns `line_number` sequentially
1, 2, 3, … in that emission order. -/
theorem aggregate_order (items : List LineItem) :
    List.Sorted keyLe ((aggregate_by_sku items).map fun x => x.sku) ∧
    ((aggregate_by_sku items).map fun x => x.line_number) =
      List.range' 1 (aggregate_by_sku items).length := by
  constructor
  · rw [aggregate_map_sku]
    exact List.sorted_insertionSort keyLe _
  · exact aggregate_map_line items

/-- C4: after aggregation there is at most one item per distinct SKU
(the output SKU list has no duplicates), and the number of distinct
SKUs in the output equals the number of distinct SKUs in the input
(grouping is by exact string equality). -/
theorem aggregate_distinct_skus (items : List LineItem) :
    ((aggregate_by_sku items).map fun x => x.sku).Nodup ∧
    ((aggregate_by_sku items).map fun x => x.sku).dedup.length =
      (items.map fun x => x.sku).dedup.length := by
  rw [aggregate_map_sku]
  refine ⟨sortedKeys_nodup items, ?_⟩
  rw [List.dedup_eq_self.mpr (sortedKeys_nodup items)]
  exact sortedKeys_length items

theorem mkAgg_unit_price (items : List LineItem) (i : Nat) (k : PyStr) :
    (mkAgg items i k).unit_price =
      (if 0 < sumWith (fun x => x.quantity) (groupOf items k) then
        some (sumWith (fun x => x.value) (groupOf items k) /
          sumWith (fun x => x.quantity) (groupOf items k))
      else none) := rfl

theorem sortedKeys_cex : sortedKeys [cexPos, cexZero] = [strN "A", strN "B"] := by
  decide

theorem groupOf_cexA : groupOf [cexPos, cexZero] (strN "A") = [cexZero] := by decide

theorem groupOf_cexB : groupOf [cexPos, cexZero] (strN "B") = [cexPos] := by decide

/-- C1 counterexample: the input item with SKU `"A"` has summed quantity
0 and prior `unit_price = 5`, but its aggregated record carries
`unit_price = None` — the prior unit price is not kept (`unit_price` is
not in `agg_dict`, so the column is dropped and only re-filled where the
summed quantity is positive). -/
theorem aggregate_unit_price_cex :
    cexZero.unit_price = some 5 ∧
    ((aggregate_by_sku [cexPos, cexZero]).map fun x => (x.sku, x.unit_price)) =
      [(strN "A", none), (strN "B", some 5)] := by
  have hqa : sumWith (fun x => x.quantity) [cexZero] = 0 := by
    simp [sumWith, cexZero]
  have hqb : sumWith (fun x => x.quantity) [cexPos] = 2 := by
    simp [sumWith, cexPos]
  have hvb : sumWith (fun x => x.value) [cexPos] = 10 := by
    simp [sumWith, cexPos]
  refine ⟨rfl, ?_⟩
  unfold aggregate_by_sku
  rw [if_neg (by decide : ¬([cexPos, cexZero] : List LineItem) = []), sortedKeys_cex]
  simp only [List.enum, List.enumFrom, List.map, mkAgg_sku, mkAgg_unit_price,
    groupOf_cexA, groupOf_cexB, hqa, hqb, hvb]
  norm_num

/-- C1 amended: each SKU group whose summed quantity is strictly
positive gets `unit_price` recomputed as summed value / summed quantity;
each group whose summed quantity is zero or negative gets
`unit_price = None` (the prior unit_price is discarded by the
aggregation, which drops the `unit_price` column and only re-creates it
on the positive-quantity rows). -/
theorem aggregate_unit_price (items : List LineItem) (it : LineItem)
    (hmem : it ∈ aggregate_by_sku items) :
    (0 < sumWith (fun x => x.quantity) (groupOf items it.sku) →
      it.unit_price = some (sumWith (fun x => x.value) (groupOf items it.sku) /
        sumWith (fun x => x.quantity) (groupOf items it.sku))) ∧
    (sumWith (fun x => x.quantity) (groupOf items it.sku) ≤ 0 →
      it.unit_price = none) := by
  unfold aggregate_by_sku at hmem
  by_cases h : items = []
  · rw [if_pos h] at hmem
    simp at hmem
  · rw [if_neg h] at hmem
    obtain ⟨p, _, rfl⟩ := List.mem_map.mp hmem
    rw [mkAgg_sku, mkAgg_unit_price]
    constructor
    · intro hq
      rw [if_pos hq]
    · intro hq
      rw [if_neg (not_lt.mpr hq)]

/-- Witness for C1 (amended) at a concrete aggregated output item. -/
theorem aggregate_unit_price_w :
    (0 < sumWith (fun x => x.quantity)
        (groupOf [cexPos, cexZero] (mkAgg [cexPos, cexZero] 1 (strN "B")).sku) →
      (mkAgg [cexPos, cexZero] 1 (strN "B")).unit_price =
        some (sumWith (fun x => x.value)
            (groupOf [cexPos, cexZero] (mkAgg [cexPos, cexZero] 1 (strN "B")).sku) /
          sumWith (fun x => x.quantity)
            (groupOf [cexPos, cexZero] (mkAgg [cexPos, cexZero] 1 (strN "B")).sku))) ∧
    (sumWith (fun x => x.quantity)
        (groupOf [cexPos, cexZero] (mkAgg [cexPos, cexZero] 1 (strN "B")).sku) ≤ 0 →
      (mkAgg [cexPos, cexZero] 1 (strN "B")).unit_price = none) :=
  aggregate_unit_price [cexPos, cexZero] (mkAgg [cexPos, cexZero] 1 (strN "B"))
    (by
      unfold aggregate_by_sku
      rw [if_neg (by decide : ¬([cexPos, cexZero] : List LineItem) = []), sortedKeys_cex]
      exact List.mem_map.mpr ⟨(1, strN "B"), by decide, rfl⟩)

theorem sum_map_filter_split (f : LineItem → Rat) (p : LineItem → Bool)
    (l : List LineItem) :
    ((l.filter p).map f).sum + ((l.filter (fun x => !p x)).map f).sum =
      (l.map f).sum := by
  induction l with
  | nil => simp
  | cons a t ih =>
    by_cases h : p a
    · simp only [List.filter_cons, h, Bool.not_true, if_true, if_false, ite_true,
        ite_false, Bool.false_eq_true, List.map_cons, List.sum_cons]
      linarith [ih]
    · simp only [List.filter_cons, h, Bool.not_false, if_true, if_false, ite_true,
        ite_false, Bool.false_eq_true, List.map_cons, List.sum_cons]
      linarith [ih]

theorem sum_groups (f : LineItem → Rat) (items : List LineItem) (keys : List PyStr)
    (hnd : keys.Nodup) (hcov : ∀ x ∈ items, x.sku ∈ keys) :
    (keys.map (fun k => ((groupOf items k).map f).sum)).sum = (items.map f).sum := by
  induction keys generalizing items with
  | nil =>
    cases items with
    | nil => rfl
    | cons a t =>
      exact absurd (hcov a (by simp)) (by simp)
  | cons k ks ih =>
    have hk_not : k ∉ ks := (List.nodup_cons.mp hnd).1
    have hnd' : ks.Nodup := (List.nodup_cons.mp hnd).2
    have hgrest : ∀ k' ∈ ks,
        groupOf (items.filter (fun x => !decide (x.sku = k))) k' = groupOf items k' := by
      intro k' hk'
      have hne : k' ≠ k := fun e => hk_not (e ▸ hk')
      unfold groupOf
      rw [List.filter_filter]
      apply List.filter_congr
      intro x _
      by_cases hx : x.sku = k'
      · simp [hx, hne]
      · simp [hx]
    have hcov' : ∀ x ∈ items.filter (fun x => !decide (x.sku = k)), x.sku ∈ ks := by
      intro x hx
      obtain ⟨hxm, hxp⟩ := List.mem_filter.mp hx
      have := hcov x hxm
      simp only [List.mem_cons] at this
      rcases this with h | h
      · exfalso
        simp [h] at hxp
      · exact h
    have hrec := ih (items.filter (fun x => !decide (x.sku = k))) hnd' hcov'
    have hmaps : (ks.map (fun k' => ((groupOf items k').map f).sum)) =
        ks.map (fun k' =>
          ((groupOf (items.filter (fun x => !decide (x.sku = k))) k').map f).sum) :=
      List.map_congr_left (fun k' hk' => by rw [hgrest k' hk'])
    rw [List.map_cons, List.sum_cons, hmaps, hrec]
    have hsplit : ((items.filter (fun x => decide (x.sku = k))).map f).sum +
        ((items.filter (fun x => !decide (x.sku = k))).map f).sum =
          (items.map f).sum :=
      sum_map_filter_split f (fun x => decide (x.sku = k)) items
    unfold groupOf
    linarith [hsplit]

theorem mkAgg_field_sum (items : List LineItem) (i : Nat) (k : PyStr) :
    (mkAgg items i k).quantity = some (sumWith (fun x => x.quantity) (groupOf items k)) ∧
    (mkAgg items i k).net_weight =
      some (sumWith (fun x => x.net_weight) (groupOf items k)) ∧
    (mkAgg items i k).gross_weight =
      some (sumWith (fun x => x.gross_weight) (groupOf items k)) ∧
    (mkAgg items i k).value = some (sumWith (fun x => x.value) (groupOf items k)) :=
  ⟨rfl, rfl, rfl, rfl⟩

theorem aggregate_sum_field (items : List LineItem) (F : LineItem → Option Rat)
    (hF : ∀ i k, F (mkAgg items i k) = some (sumWith F (groupOf items k))) :
    sumWith F (aggregate_by_sku items) = sumWith F items := by
  by_cases h : items = []
  · subst h; rfl
  · unfold aggregate_by_sku
    rw [if_neg h]
    unfold sumWith
    rw [List.map_map]
    have e1 : ((sortedKeys items).enum.map
        ((fun x => (F x).getD 0) ∘ fun p : Nat × PyStr => mkAgg items p.1 p.2)) =
        (sortedKeys items).enum.map
          (fun p => ((groupOf items p.2).map (fun x => (F x).getD 0)).sum) := by
      apply List.map_congr_left
      intro p _
      simp only [Function.comp]
      rw [hF p.1 p.2]
      rfl
    rw [e1]
    have e2 : ((sortedKeys items).enum.map
        (fun p => ((groupOf items p.2).map (fun x => (F x).getD 0)).sum)) =
        ((sortedKeys items).map
          (fun k => ((groupOf items k).map (fun x => (F x).getD 0)).sum)) := by
      have : (fun p : Nat × PyStr => ((groupOf items p.2).map (fun x => (F x).getD 0)).sum)
          = (fun k => ((groupOf items k).map (fun x => (F x).getD 0)).sum) ∘ Prod.snd := rfl
      rw [this, ← List.map_map]
      simp only [List.enum]
      rw [List.enumFrom_map_snd]
    rw [e2]
    exact sum_groups (fun x => (F x).getD 0) items (sortedKeys items)
      (sortedKeys_nodup items)
      (fun x hx => (mem_sortedKeys items x.sku).mpr (List.mem_map_of_mem _ hx))

/-- C3: aggregation preserves the total (null-as-0) sum of each of the
four summed columns: `value`, `quantity`, `net_weight`, `gross_weight`. -/
theorem aggregate_preserves_sums (items : List LineItem) :
    sumWith (fun x => x.value) (aggregate_by_sku items) =
      sumWith (fun x => x.value) items ∧
    sumWith (fun x => x.quantity) (aggregate_by_sku items) =
      sumWith (fun x => x.quantity) items ∧
    sumWith (fun x => x.net_weight) (aggregate_by_sku items) =
      sumWith (fun x => x.net_weight) items ∧
    sumWith (fun x => x.gross_weight) (aggregate_by_sku items) =
      sumWith (fun x => x.gross_weight) items := by
  refine ⟨?_, ?_, ?_, ?_⟩
  · exact aggregate_sum_field items (fun x => x.value)
      (fun i k => (mkAgg_field_sum items i k).2.2.2)
  · exact aggregate_sum_field items (fun x => x.quantity)
      (fun i k => (mkAgg_field_sum items i k).1)
  · exact aggregate_sum_field items (fun x => x.net_weight)
      (fun i k => (mkAgg_field_sum items i k).2.1)
  · exact aggregate_sum_field items (fun x => x.gross_weight)
      (fun i k => (mkAgg_field_sum items i k).2.2.1)

/-- C8: `clean_numeric` is total by construction (it returns on every
branch instead of raising): a missing/NaN cell yields null, a cell that
fails numeric coercion — in particular the text `"N/A"` — yields null,
and a coercible cell yields its numeric value. -/
theorem clean_numeric_total (s : PyStr) (q : Rat) (hq : parseFloat s = some q) :
    clean_numeric Cell.nan = none ∧
    clean_numeric (Cell.str (strN "N/A")) = none ∧
    (∀ t, parseFloat t = none → clean_numeric (Cell.str t) = none) ∧
    (∀ r : Rat, clean_numeric (Cell.num r) = some r) ∧
    clean_numeric (Cell.str s) = some q := by
  refine ⟨rfl, by decide, ?_, fun r => rfl, ?_⟩
  · intro t ht
    simp only [clean_numeric, Cell.isna, pyFloat, ht, if_false, Bool.false_eq_true]
  · simp only [clean_numeric, Cell.isna, pyFloat, hq, if_false, Bool.false_eq_true]

theorem parseFloat_125 : parseFloat (strN "12.5") = some ((25 : Rat) / 2) := by
  have h2 : pyStrip (strN "12.5") = [49, 50, 46, 53] := by decide
  have h3 : ([49, 50, 46, 53] : List Nat).splitOn 46 = [[49, 50], [53]] := by decide
  have h4 : digitsVal [49, 50] = some 12 := by decide
  have h5 : digitsVal [53] = some 5 := by decide
  unfold parseFloat
  rw [h2]
  show parseUnsigned [49, 50, 46, 53] = some ((25 : Rat) / 2)
  unfold parseUnsigned
  rw [h3]
  norm_num [h4, h5]
  decide

/-- Witness for C8 at the coercible concrete input `"12.5"`. -/
theorem clean_numeric_total_w :
    clean_numeric (Cell.str (strN "12.5")) = some ((25 : Rat) / 2) :=
  (clean_numeric_total (strN "12.5") ((25 : Rat) / 2) parseFloat_125).2.2.2.2

/-- C9 counterexample: for the empty item list `_generate_summary`
returns the empty dict `{}` — not a `ParseSummary` record with zero
totals and zero counts. -/
theorem generate_summary_empty_cex :
    generate_summary [] = none ∧
    generate_summary [] ≠ some ⟨0, 0, 0, 0, 0, 0, 0⟩ := by
  constructor
  · rfl
  · intro h
    simp [generate_summary] at h

/-- C9 amended: for an empty line-item list `_generate_summary` returns
the empty summary mapping `{}` (no keys at all, modelled `none`), and
does so without error; the zero-total record is produced for no input
of length 0. -/
theorem generate_summary_empty : generate_summary ([] : List LineItem) = none := rfl

/-! ### Parse-loop lemmas -/

theorem parseLoop_nil (v : Bool) (m : Option Int) (idx cnt : Nat) :
    parseLoop v m idx cnt [] = ([], []) := rfl

theorem parseLoop_cons (v : Bool) (m : Option Int) (idx cnt : Nat) (r : Row)
    (rest : List Row) :
    parseLoop v m idx cnt (r :: rest) =
      if maxActive m ∧ m.getD 0 ≤ (cnt : Int) then ([], [])
      else if blankSku r then parseLoop v m (idx + 1) cnt rest
      else (mkItem idx r :: (parseLoop v m (idx + 1) (cnt + 1) rest).1,
        if v ∧ validate_item (mkItem idx r) ≠ [] then
          ⟨idx + 1, validate_item (mkItem idx r)⟩ ::
            (parseLoop v m (idx + 1) (cnt + 1) rest).2
        else (parseLoop v m (idx + 1) (cnt + 1) rest).2) := rfl

theorem parseLoop_items_indep (m : Option Int) :
    ∀ (rows : List Row) (idx cnt : Nat),
      (parseLoop true m idx cnt rows).1 = (parseLoop false m idx cnt rows).1 := by
  intro rows
  induction rows with
  | nil => intro idx cnt; rfl
  | cons r rest ih =>
    intro idx cnt
    rw [parseLoop_cons, parseLoop_cons]
    by_cases hb : maxActive m ∧ m.getD 0 ≤ (cnt : Int)
    · rw [if_pos hb, if_pos hb]
    · rw [if_neg hb, if_neg hb]
      by_cases hs : blankSku r = true
      · rw [if_pos hs, if_pos hs]
        exact ih (idx + 1) cnt
      · rw [if_neg hs, if_neg hs]
        show mkItem idx r :: (parseLoop true m (idx + 1) (cnt + 1) rest).1 =
          mkItem idx r :: (parseLoop false m (idx + 1) (cnt + 1) rest).1
        rw [ih (idx + 1) (cnt + 1)]

theorem parseLoop_errs_keyed (v : Bool) (m : Option Int) :
    ∀ (rows : List Row) (idx cnt : Nat), ∀ e ∈ (parseLoop v m idx cnt rows).2,
      ∃ it ∈ (parseLoop v m idx cnt rows).1, it.line_number = e.line := by
  intro rows
  induction rows with
  | nil => intro idx cnt e he; simp [parseLoop_nil] at he
  | cons r rest ih =>
    intro idx cnt e he
    rw [parseLoop_cons] at he ⊢
    by_cases hb : maxActive m ∧ m.getD 0 ≤ (cnt : Int)
    · rw [if_pos hb] at he
      simp at he
    · rw [if_neg hb] at he ⊢
      by_cases hs : blankSku r = true
      · rw [if_pos hs] at he ⊢
        exact ih (idx + 1) cnt e he
      · rw [if_neg hs] at he ⊢
        by_cases hv : v ∧ validate_item (mkItem idx r) ≠ []
        · replace he : e ∈ (⟨idx + 1, validate_item (mkItem idx r)⟩ : ParseErr) ::
              (parseLoop v m (idx + 1) (cnt + 1) rest).2 := by
            have : ((mkItem idx r :: (parseLoop v m (idx + 1) (cnt + 1) rest).1,
                if v ∧ validate_item (mkItem idx r) ≠ [] then
                  (⟨idx + 1, validate_item (mkItem idx r)⟩ : ParseErr) ::
                    (parseLoop v m (idx + 1) (cnt + 1) rest).2
                else (parseLoop v m (idx + 1) (cnt + 1) rest).2)).2 =
                (⟨idx + 1, validate_item (mkItem idx r)⟩ : ParseErr) ::
                  (parseLoop v m (idx + 1) (cnt + 1) rest).2 := by
              show (if v ∧ validate_item (mkItem idx r) ≠ [] then _ else _) = _
              rw [if_pos hv]
            rw [this] at he
            exact he
          rcases List.mem_cons.mp he with h | h
          · refine ⟨mkItem idx r, ?_, ?_⟩
            · show mkItem idx r ∈
                (mkItem idx r :: (parseLoop v m (idx + 1) (cnt + 1) rest).1, _).1
              exact List.mem_cons_self _ _
            · rw [h]
              rfl
          · obtain ⟨it, hit, hln⟩ := ih (idx + 1) (cnt + 1) e h
            refine ⟨it, ?_, hln⟩
            show it ∈ (mkItem idx r :: (parseLoop v m (idx + 1) (cnt + 1) rest).1, _).1
            exact List.mem_cons_of_mem _ hit
        · replace he : e ∈ (parseLoop v m (idx + 1) (cnt + 1) rest).2 := by
            have : ((mkItem idx r :: (parseLoop v m (idx + 1) (cnt + 1) rest).1,
                if v ∧ validate_item (mkItem idx r) ≠ [] then
                  (⟨idx + 1, validate_item (mkItem idx r)⟩ : ParseErr) ::
                    (parseLoop v m (idx + 1) (cnt + 1) rest).2
                else (parseLoop v m (idx + 1) (cnt + 1) rest).2)).2 =
                (parseLoop v m (idx + 1) (cnt + 1) rest).2 := by
              show (if v ∧ validate_item (mkItem idx r) ≠ [] then _ else _) = _
              rw [if_neg hv]
            rw [this] at he
            exact he
          obtain ⟨it, hit, hln⟩ := ih (idx + 1) (cnt + 1) e he
          refine ⟨it, ?_, hln⟩
          show it ∈ (mkItem idx r :: (parseLoop v m (idx + 1) (cnt + 1) rest).1, _).1
          exact List.mem_cons_of_mem _ hit

/-- C5: validation is advisory.  The item list produced with validation
enabled is identical to the one produced with validation disabled
(validation never removes or modifies an item, so the kept-item count
equals the extracted-item count), and every recorded validation error is
keyed by the line number of an item that is in the output. -/
theorem parse_validation_advisory (rows : List Row) (m : Option Int) :
    (parse_file_items true m rows).1 = (parse_file_items false m rows).1 ∧
    (parse_file_items true m rows).1.length = (parse_file_items false m rows).1.length ∧
    ∀ e ∈ (parse_file_items true m rows).2,
      ∃ it ∈ (parse_file_items true m rows).1, it.line_number = e.line := by
  refine ⟨parseLoop_items_indep m rows 0 0, ?_, parseLoop_errs_keyed true m rows 0 0⟩
  rw [parse_file_items, parse_file_items, parseLoop_items_indep m rows 0 0]

/-- Witness for C5 on a concrete one-row source whose item fails
validation (missing HTS, origin): the item is kept regardless. -/
theorem parse_validation_advisory_w :
    (parse_file_items true none [rowSkuW]).1 = (parse_file_items false none [rowSkuW]).1 ∧
    (parse_file_items true none [rowSkuW]).1.length =
      (parse_file_items false none [rowSkuW]).1.length ∧
    ∀ e ∈ (parse_file_items true none [rowSkuW]).2,
      ∃ it ∈ (parse_file_items true none [rowSkuW]).1, it.line_number = e.line :=
  parse_validation_advisory [rowSkuW] none

theorem parseLoop_length_le (v : Bool) (m : Option Int) :
    ∀ (rows : List Row) (idx cnt : Nat),
      (parseLoop v m idx cnt rows).1.length ≤ rows.length := by
  intro rows
  induction rows with
  | nil => intro idx cnt; simp [parseLoop_nil]
  | cons r rest ih =>
    intro idx cnt
    rw [parseLoop_cons]
    by_cases hb : maxActive m ∧ m.getD 0 ≤ (cnt : Int)
    · rw [if_pos hb]
      simp
    · rw [if_neg hb]
      by_cases hs : blankSku r = true
      · rw [if_pos hs]
        exact Nat.le_succ_of_le (ih (idx + 1) cnt)
      · rw [if_neg hs]
        show (mkItem idx r :: (parseLoop v m (idx + 1) (cnt + 1) rest).1).length ≤
          rest.length + 1
        rw [List.length_cons]
        exact Nat.succ_le_succ (ih (idx + 1) (cnt + 1))

theorem parseLoop_items_from_rows (v : Bool) (m : Option Int) :
    ∀ (rows : List Row) (idx cnt : Nat), ∀ it ∈ (parseLoop v m idx cnt rows).1,
      ∃ j, ∃ hj : j < rows.length,
        it.line_number = idx + j + 1 ∧ blankSku (rows.get ⟨j, hj⟩) = false := by
  intro rows
  induction rows with
  | nil => intro idx cnt it hit; simp [parseLoop_nil] at hit
  | cons r rest ih =>
    intro idx cnt it hit
    rw [parseLoop_cons] at hit
    by_cases hb : maxActive m ∧ m.getD 0 ≤ (cnt : Int)
    · rw [if_pos hb] at hit
      simp at hit
    · rw [if_neg hb] at hit
      by_cases hs : blankSku r = true
      · rw [if_pos hs] at hit
        obtain ⟨j, hj, hln, hnb⟩ := ih (idx + 1) cnt it hit
        exact ⟨j + 1, Nat.succ_lt_succ hj, by omega, hnb⟩
      · rw [if_neg hs] at hit
        replace hit : it ∈ mkItem idx r :: (parseLoop v m (idx + 1) (cnt + 1) rest).1 :=
          hit
        rcases List.mem_cons.mp hit with h | h
        · refine ⟨0, Nat.succ_pos _, ?_, ?_⟩
          · rw [h]
            rfl
          · simpa using Bool.not_eq_true _ |>.mp hs
        · obtain ⟨j, hj, hln, hnb⟩ := ih (idx + 1) (cnt + 1) it h
          exact ⟨j + 1, Nat.succ_lt_succ hj, by omega, hnb⟩

theorem parseLoop_errs_from_rows (v : Bool) (m : Option Int) :
    ∀ (rows : List Row) (idx cnt : Nat), ∀ e ∈ (parseLoop v m idx cnt rows).2,
      ∃ j, ∃ hj : j < rows.length,
        e.line = idx + j + 1 ∧ blankSku (rows.get ⟨j, hj⟩) = false := by
  intro rows idx cnt e he
  obtain ⟨it, hit, hln⟩ := parseLoop_errs_keyed v m rows idx cnt e he
  obtain ⟨j, hj, hjln, hnb⟩ := parseLoop_items_from_rows v m rows idx cnt it hit
  exact ⟨j, hj, by omega, hnb⟩

/-- C6: a row whose SKU cell is missing or blank after trimming yields
neither a line item nor an error entry (no output carries its 1-based
line number), and the output item count never exceeds the row count. -/
theorem blank_sku_skipped (v : Bool) (m : Option Int) (rows : List Row) (i : Nat)
    (hi : i < rows.length) (hblank : blankSku (rows.get ⟨i, hi⟩) = true) :
    (∀ it ∈ (parse_file_items v m rows).1, it.line_number ≠ i + 1) ∧
    (∀ e ∈ (parse_file_items v m rows).2, e.line ≠ i + 1) ∧
    (parse_file_items v m rows).1.length ≤ rows.length := by
  refine ⟨?_, ?_, parseLoop_length_le v m rows 0 0⟩
  · intro it hit hline
    obtain ⟨j, hj, hln, hnb⟩ := parseLoop_items_from_rows v m rows 0 0 it hit
    have hji : j = i := by omega
    subst hji
    rw [hnb] at hblank
    exact Bool.false_ne_true hblank
  · intro e he hline
    obtain ⟨j, hj, hln, hnb⟩ := parseLoop_errs_from_rows v m rows 0 0 e he
    have hji : j = i := by omega
    subst hji
    rw [hnb] at hblank
    exact Bool.false_ne_true hblank

/-- Witness for C6 on a concrete source whose first row has a
whitespace-only SKU cell. -/
theorem blank_sku_skipped_w :
    (∀ it ∈ (parse_file_items true none [rowBlankW, rowSkuW]).1,
      it.line_number ≠ 0 + 1) ∧
    (∀ e ∈ (parse_file_items true none [rowBlankW, rowSkuW]).2, e.line ≠ 0 + 1) ∧
    (parse_file_items true none [rowBlankW, rowSkuW]).1.length ≤
      ([rowBlankW, rowSkuW] : List Row).length :=
  blank_sku_skipped true none [rowBlankW, rowSkuW] 0 (by decide) (by decide)

theorem parseLoop_zero_eq_none (v : Bool) :
    ∀ (rows : List Row) (idx cnt : Nat),
      parseLoop v (some 0) idx cnt rows = parseLoop v none idx cnt rows := by
  intro rows
  induction rows with
  | nil => intro idx cnt; rfl
  | cons r rest ih =>
    intro idx cnt
    rw [parseLoop_cons, parseLoop_cons]
    have h0 : ¬(maxActive (some 0) ∧ (some (0 : Int)).getD 0 ≤ (cnt : Int)) := by
      simp [maxActive]
    have hn : ¬(maxActive (none : Option Int) ∧
        (none : Option Int).getD 0 ≤ (cnt : Int)) := by
      simp [maxActive]
    rw [if_neg h0, if_neg hn]
    by_cases hs : blankSku r = true
    · rw [if_pos hs, if_pos hs]
      exact ih (idx + 1) cnt
    · rw [if_neg hs, if_neg hs, ih (idx + 1) (cnt + 1)]

theorem parseLoop_limit (v : Bool) (n : Int) (hn : 0 < n) :
    ∀ (rows : List Row) (idx cnt : Nat), (cnt : Int) ≤ n →
      ((parseLoop v (some n) idx cnt rows).1.length : Int) ≤ n - cnt := by
  intro rows
  induction rows with
  | nil =>
    intro idx cnt hcnt
    rw [parseLoop_nil]
    simp
    omega
  | cons r rest ih =>
    intro idx cnt hcnt
    rw [parseLoop_cons]
    have hact : maxActive (some n) = true := by
      simp only [maxActive, bne_iff_ne, ne_eq]
      omega
    by_cases hb : maxActive (some n) ∧ (some n).getD 0 ≤ (cnt : Int)
    · rw [if_pos hb]
      simp
      omega
    · rw [if_neg hb]
      have hlt : (cnt : Int) < n := by
        rcases not_and_or.mp hb with h | h
        · exact absurd hact h
        · simp only [Option.getD_some, not_le] at h
          exact h
      by_cases hs : blankSku r = true
      · rw [if_pos hs]
        exact ih (idx + 1) cnt hcnt
      · rw [if_neg hs]
        show (((mkItem idx r :: (parseLoop v (some n) (idx + 1) (cnt + 1) rest).1).length :
          Int)) ≤ n - cnt
        rw [List.length_cons]
        have hrec := ih (idx + 1) (cnt + 1) (by omega)
        push_cast at hrec ⊢
        omega

/-- C10: with config `max_items = n` for `n > 0`, the row scan stops
once `n` items are collected, so the pre-aggregation item list has at
most `n` entries; a config of `max_items = 0` behaves exactly like the
unset default `None` (both are falsy, so no limit is applied). -/
theorem max_items_limit (v : Bool) (rows : List Row) (n : Int) (hn : 0 < n) :
    ((parse_file_items v (some n) rows).1.length : Int) ≤ n ∧
    parse_file_items v (some 0) rows = parse_file_items v none rows := by
  constructor
  · have h := parseLoop_limit v n hn rows 0 0 (by omega)
    simpa using h
  · exact parseLoop_zero_eq_none v rows 0 0

/-- Witness for C10 on a concrete two-row source with `max_items = 1`. -/
theorem max_items_limit_w :
    (((parse_file_items true (some 1) [rowSkuW, rowSkuW]).1.length : Int) ≤ 1) ∧
    parse_file_items true (some 0) [rowSkuW, rowSkuW] =
      parse_file_items true none [rowSkuW, rowSkuW] :=
  max_items_limit true [rowSkuW, rowSkuW] 1 (by decide)

end Acuity
